import Mathlib

/-!
Verification of the spotify-sync position-reconciliation core.

Shallow embedding of the member-seek / tolerance / smoothing / round-trip
functions from `src/lib/redis-client.ts`, `src/lib/redis-room-sync.ts`
(unnamed parts 012 and 013) and the member tick `syncToHost` from
`src/hooks/useRoomSync.ts`.  JavaScript numbers are modelled as rationals;
`Date.now()` / `performance.now()` readings are lifted to explicit
parameters of the embedded functions.
-/

set_option linter.unusedVariables false

/-- Owner-published snapshot stored under `room:sync:<code>`:
seek position `SH` (ms), publish timestamp `TH`, owner round-trip `RH`
(null initially), and the playing flag. -/
structure HostSyncData where
  SH : ℚ
  TH : ℚ
  RH : Option ℚ
  isPlaying : Bool

/-- Raw (pre-smoothing, pre-clamp) target of `calculateMemberSeekClient`
for a playing snapshot: `SH + (TM - TH) - ((RH || 0)/2 + RM)`. -/
def rawSeekClient (hostData : HostSyncData) (TM RM : ℚ) : ℚ :=
  hostData.SH + ((TM - hostData.TH) - ((hostData.RH.getD 0) / 2 + RM))

/-- Weight used for history entry `i` in the smoothing loop:
`weights[i] || 0.1` with `weights = [0.2, 0.3, 0.5]`. -/
def weightAt (i : ℕ) : ℚ :=
  [2/10, 3/10, 5/10].getD i (1/10)

/-- JavaScript `previousSeeks.slice(-3)`: the last (up to) three entries. -/
def sliceLast3 (l : List ℚ) : List ℚ :=
  l.drop (l.length - 3)

/-- Smoothing blend: `rawSeek * 0.6` plus, for each recent seek at index
`i`, `seek * weight(i) * 0.4`. -/
def smoothSeek (rawSeek : ℚ) (recentSeeks : List ℚ) : ℚ :=
  rawSeek * (6/10) + (recentSeeks.enum.map (fun p => p.2 * weightAt p.1 * (4/10))).sum

/-- Embedding of `calculateMemberSeekClient` (redis-client.ts).  Paused
snapshots return `SH` directly; playing snapshots extrapolate, then either
smooth against the last three previous seeks (when history is non-empty)
or return the raw value, clamped at zero.  `audioLatency` is only logged
by the source, never used in the computation. -/
def calculateMemberSeekClient (hostData : HostSyncData) (TM RM : ℚ)
    (previousSeeks : List ℚ) (audioLatency : ℚ) : ℚ :=
  if !hostData.isPlaying then
    hostData.SH
  else
    let rawSeek := rawSeekClient hostData TM RM
    if 0 < previousSeeks.length then
      max 0 (smoothSeek rawSeek (sliceLast3 previousSeeks))
    else
      max 0 rawSeek

/-- Pre-clamp value of `calculateMemberSeek` (redis-room-sync.ts, part_012)
for a playing snapshot: `SH + (TM - TH) - (RM - (RH || 0))/2`. -/
def adjustedSeek (hostData : HostSyncData) (TM RM : ℚ) : ℚ :=
  hostData.SH + (TM - hostData.TH) - (RM - hostData.RH.getD 0) / 2

/-- Embedding of `calculateMemberSeek` (part_012): paused snapshots return
`SH`; playing snapshots return the adjusted seek clamped at zero. -/
def calculateMemberSeek (hostData : HostSyncData) (TM RM : ℚ) : ℚ :=
  if !hostData.isPlaying then
    hostData.SH
  else
    max 0 (adjustedSeek hostData TM RM)

/-- Embedding of `getAdaptiveSyncTolerance` (redis-client.ts): base 1000 ms,
plus 2x the average latency above 200 ms or 1x above 100 ms, clamped to
[500, 5000].  `RH || 0` equals `RH` as a rational value. -/
def getAdaptiveSyncTolerance (RM RH : ℚ) : ℚ :=
  let avgLatency := (RM + RH) / 2
  let tolerance : ℚ :=
    if 200 < avgLatency then 1000 + avgLatency * 2
    else if 100 < avgLatency then 1000 + avgLatency
    else 1000
  min (max tolerance 500) 5000

/-- Embedding of `calculateSyncedPosition` (part_013); the source reads
`Date.now()` internally, lifted here to the `now` parameter. -/
def calculateSyncedPosition (recordedPosition recordedTimestamp : ℚ)
    (isPlaying : Bool) (userLatency : ℚ) (now : ℚ) : ℚ :=
  if !isPlaying then
    recordedPosition
  else
    let timeDiff := now - recordedTimestamp
    let adjustedTimeDiff := max 0 (timeDiff - userLatency)
    recordedPosition + adjustedTimeDiff

/-- Playback-driver calls the member tick can issue. -/
inductive DriverCall where
  | seek (position : ℚ)
  | resume
  | pause
deriving DecidableEq

/-- Local playback state returned by `player.getCurrentState()`. -/
structure PlayerState where
  position : ℚ
  paused : Bool

/-- SYNC_TOLERANCE constant of useRoomSync.ts: 1 second. -/
def SYNC_TOLERANCE : ℚ := 1000

/-- Embedding of the member tick `syncToHost` (useRoomSync.ts).  Returns
the list of driver calls issued and whether `lastSyncTime` was updated.
`none` for the fetch models a non-ok response (the sync API returns 404
when `getHostSyncData` finds no snapshot); `none` for the player state
models `getCurrentState()` returning null.  Both early-return before any
driver call and before `setLastSyncTime`. -/
def syncToHost (fetched : Option HostSyncData) (current : Option PlayerState)
    (TM RM : ℚ) : List DriverCall × Bool :=
  match fetched with
  | none => ([], false)
  | some hostData =>
    match current with
    | none => ([], false)
    | some currentState =>
      let SM := currentState.position
      let targetSeek := calculateMemberSeek hostData TM RM
      let seekDiff := |SM - targetSeek|
      let seekCalls : List DriverCall :=
        if SYNC_TOLERANCE < seekDiff then [DriverCall.seek targetSeek] else []
      let playPauseCalls : List DriverCall :=
        if currentState.paused ≠ !hostData.isPlaying then
          if hostData.isPlaying && currentState.paused then [DriverCall.resume]
          else if !hostData.isPlaying && !currentState.paused then [DriverCall.pause]
          else []
        else []
      (seekCalls ++ playPauseCalls, true)

/-- Outcome of the HTTP ping probe inside `measureRoundTripTime`
(part_012): the fetch either throws, or completes with an ok flag and the
two `performance.now()` readings. -/
inductive ProbeResult where
  | threw
  | completed (ok : Bool) (startTime endTime : ℚ)

/-- Embedding of `measureRoundTripTime` (part_012): 0 when the fetch
throws or the response is not ok, otherwise `max 0 (endTime - startTime)`.
Totality of this function models that the source never re-raises. -/
def measureRoundTripTime : ProbeResult → ℚ
  | ProbeResult.threw => 0
  | ProbeResult.completed ok s e => if ok then max 0 (e - s) else 0

/-- Outcome of the Redis set/get probe inside
`measureRoundTripTimeClient` (redis-client.ts). -/
inductive RedisProbeResult where
  | threw
  | completed (startTime endTime : ℚ)

/-- Embedding of `measureRoundTripTimeClient` (redis-client.ts): 0 when a
Redis call throws, otherwise `max 0 (endTime - startTime)`. -/
def measureRoundTripTimeClient : RedisProbeResult → ℚ
  | RedisProbeResult.threw => 0
  | RedisProbeResult.completed s e => max 0 (e - s)

/-- C1: for every snapshot with `isPlaying = false`, both member-seek
computations return exactly the snapshot position `SH`, regardless of the
member time, the latencies, the smoothing history and the audio-latency
argument. -/
theorem pause_correctness (hostData : HostSyncData) (TM RM : ℚ)
    (previousSeeks : List ℚ) (audioLatency : ℚ)
    (h : hostData.isPlaying = false) :
    calculateMemberSeekClient hostData TM RM previousSeeks audioLatency = hostData.SH ∧
    calculateMemberSeek hostData TM RM = hostData.SH := by
  constructor <;> simp [calculateMemberSeekClient, calculateMemberSeek, h]

/-- C1 witness: a concrete paused snapshot evaluated in both functions. -/
theorem pause_correctness_witness :
    ((⟨1234, 5, some 50, false⟩ : HostSyncData).isPlaying = false) ∧
    calculateMemberSeekClient ⟨1234, 5, some 50, false⟩ 99 7 [1, 2] 150 = 1234 ∧
    calculateMemberSeek ⟨1234, 5, some 50, false⟩ 99 7 = 1234 :=
  ⟨rfl, pause_correctness ⟨1234, 5, some 50, false⟩ 99 7 [1, 2] 150 rfl⟩

/-- C2 counterexample: `calculateSyncedPosition` clamps the latency-reduced
elapsed time at zero, so increasing the elapsed time by 50 ms from a start
where elapsed time is below `userLatency` does not increase the target by
50 ms. -/
theorem monotonic_extrapolation_counterexample :
    ¬ (calculateSyncedPosition 0 0 true 100 (0 + 50) =
        calculateSyncedPosition 0 0 true 100 0 + 50) := by
  norm_num [calculateSyncedPosition]

/-- C2 (amended): for playing snapshots and fixed latencies, increasing the
elapsed time by d > 0 increases the raw pre-clamp targets of
`calculateMemberSeekClient` and `calculateMemberSeek` by exactly d; for
`calculateSyncedPosition` the same holds provided the elapsed time already
exceeds `userLatency`. -/
theorem monotonic_extrapolation (hostData : HostSyncData) (TM RM d : ℚ)
    (hplay : hostData.isPlaying = true) (hd : 0 < d) :
    rawSeekClient hostData (TM + d) RM = rawSeekClient hostData TM RM + d ∧
    adjustedSeek hostData (TM + d) RM = adjustedSeek hostData TM RM + d ∧
    ∀ (pos ts u now : ℚ), u ≤ now - ts →
      calculateSyncedPosition pos ts true u (now + d) =
        calculateSyncedPosition pos ts true u now + d := by
  refine ⟨by simp [rawSeekClient]; ring, by simp [adjustedSeek]; ring, ?_⟩
  intro pos ts u now hu
  simp only [calculateSyncedPosition, Bool.not_true, Bool.false_eq_true, if_false]
  rw [max_eq_right (by linarith), max_eq_right (by linarith)]
  ring

/-- C2 witness: the amended theorem applied at a concrete playing snapshot
with d = 5. -/
theorem monotonic_extrapolation_witness :
    ((⟨0, 0, none, true⟩ : HostSyncData).isPlaying = true) ∧ (0 : ℚ) < 5 ∧
    rawSeekClient ⟨0, 0, none, true⟩ (10 + 5) 0 = rawSeekClient ⟨0, 0, none, true⟩ 10 0 + 5 :=
  ⟨rfl, by norm_num,
    (monotonic_extrapolation ⟨0, 0, none, true⟩ 10 0 5 rfl (by norm_num)).1⟩

/-- C3 counterexample: with a paused snapshot whose position is -1, both
member-seek functions return -1, a negative target (the paused branch
returns `SH` without clamping). -/
theorem nonnegativity_counterexample :
    calculateMemberSeekClient ⟨-1, 0, none, false⟩ 0 0 [] 150 < 0 ∧
    calculateMemberSeek ⟨-1, 0, none, false⟩ 0 0 < 0 := by
  constructor <;> norm_num [calculateMemberSeekClient, calculateMemberSeek]

/-- C3 (amended): whenever the snapshot position `SH` is non-negative (as
the data model guarantees), both member-seek results are non-negative; the
playing branch is clamped at zero unconditionally, but the paused branch
returns `SH` unclamped. -/
theorem nonnegativity (hostData : HostSyncData) (TM RM : ℚ)
    (previousSeeks : List ℚ) (audioLatency : ℚ)
    (h : 0 ≤ hostData.SH) :
    0 ≤ calculateMemberSeekClient hostData TM RM previousSeeks audioLatency ∧
    0 ≤ calculateMemberSeek hostData TM RM := by
  unfold calculateMemberSeekClient calculateMemberSeek
  constructor <;> split <;> try exact h
  · split
    · exact le_max_left 0 _
    · exact le_max_left 0 _
  · exact le_max_left 0 _

/-- C3 witness: the amended theorem applied at a concrete snapshot with a
non-negative position. -/
theorem nonnegativity_witness :
    (0 : ℚ) ≤ (⟨5, 0, none, false⟩ : HostSyncData).SH ∧
    0 ≤ calculateMemberSeekClient ⟨5, 0, none, false⟩ 3 2 [] 150 ∧
    0 ≤ calculateMemberSeek ⟨5, 0, none, false⟩ 3 2 :=
  ⟨by norm_num, nonnegativity ⟨5, 0, none, false⟩ 3 2 [] 150 (by norm_num)⟩

/-- Helper: the unclamped tolerance formula is monotone in the average
latency. -/
theorem toleranceFormula_mono (a b : ℚ) (hab : a ≤ b) :
    (if 200 < a then 1000 + a * 2 else if 100 < a then 1000 + a else (1000 : ℚ)) ≤
    (if 200 < b then 1000 + b * 2 else if 100 < b then 1000 + b else 1000) := by
  split_ifs <;> linarith

/-- C4: for non-negative latencies, `getAdaptiveSyncTolerance` is
non-decreasing in the average latency (RM + RH)/2 and its result always
lies within [500, 5000]. -/
theorem adaptive_tolerance (RM RH RM' RH' : ℚ)
    (h1 : 0 ≤ RM) (h2 : 0 ≤ RH) (h3 : 0 ≤ RM') (h4 : 0 ≤ RH')
    (havg : (RM + RH) / 2 ≤ (RM' + RH') / 2) :
    getAdaptiveSyncTolerance RM RH ≤ getAdaptiveSyncTolerance RM' RH' ∧
    500 ≤ getAdaptiveSyncTolerance RM RH ∧
    getAdaptiveSyncTolerance RM RH ≤ 5000 := by
  unfold getAdaptiveSyncTolerance
  refine ⟨min_le_min (max_le_max (toleranceFormula_mono _ _ havg) le_rfl) le_rfl, ?_, ?_⟩
  · refine le_min (le_max_right _ _) (by norm_num)
  · exact min_le_right _ _

/-- C4 witness: the theorem applied at concrete latency pairs with average
150 and 300. -/
theorem adaptive_tolerance_witness :
    (0 : ℚ) ≤ 100 ∧ (0 : ℚ) ≤ 200 ∧ (0 : ℚ) ≤ 250 ∧ (0 : ℚ) ≤ 350 ∧
    ((100 : ℚ) + 200) / 2 ≤ (250 + 350) / 2 ∧
    (getAdaptiveSyncTolerance 100 200 ≤ getAdaptiveSyncTolerance 250 350 ∧
      500 ≤ getAdaptiveSyncTolerance 100 200 ∧
      getAdaptiveSyncTolerance 100 200 ≤ 5000) :=
  ⟨by norm_num, by norm_num, by norm_num, by norm_num, by norm_num,
    adaptive_tolerance 100 200 250 350 (by norm_num) (by norm_num) (by norm_num)
      (by norm_num) (by norm_num)⟩

/-- C5: when the last three previous seeks all equal v, the raw target
equals v and v is non-negative, the smoothed output of
`calculateMemberSeekClient` is exactly v: the 60% current weight and the
40%-scaled history weights 0.2/0.3/0.5 sum to 1. -/
theorem smoothing_convergence (hostData : HostSyncData) (TM RM v : ℚ)
    (previousSeeks : List ℚ)
    (hplay : hostData.isPlaying = true) (hv : 0 ≤ v)
    (hhist : sliceLast3 previousSeeks = [v, v, v])
    (hraw : rawSeekClient hostData TM RM = v) :
    calculateMemberSeekClient hostData TM RM previousSeeks 150 = v := by
  have hlen : 0 < previousSeeks.length := by
    rcases previousSeeks with _ | ⟨x, xs⟩
    · simp [sliceLast3] at hhist
    · simp
  have hsm : smoothSeek v [v, v, v] = v := by
    simp [smoothSeek, weightAt, List.enum, List.enumFrom]
    ring
  have h1 : calculateMemberSeekClient hostData TM RM previousSeeks 150
      = max 0 (smoothSeek (rawSeekClient hostData TM RM) (sliceLast3 previousSeeks)) := by
    simp [calculateMemberSeekClient, hplay, hlen]
  rw [h1, hraw, hhist, hsm, max_eq_right hv]

/-- C5 witness: a constant stream of raw target 7 with history [7, 7, 7]
returns exactly 7. -/
theorem smoothing_convergence_witness :
    ((⟨0, 0, none, true⟩ : HostSyncData).isPlaying = true) ∧ (0 : ℚ) ≤ 7 ∧
    sliceLast3 [7, 7, 7] = [7, 7, 7] ∧
    rawSeekClient ⟨0, 0, none, true⟩ 7 0 = 7 ∧
    calculateMemberSeekClient ⟨0, 0, none, true⟩ 7 0 [7, 7, 7] 150 = 7 :=
  ⟨rfl, by norm_num, rfl, by norm_num [rawSeekClient],
    smoothing_convergence ⟨0, 0, none, true⟩ 7 0 7 [7, 7, 7] rfl (by norm_num) rfl
      (by norm_num [rawSeekClient])⟩

/-- C6: the two member-seek formulas are materially different: a playing
snapshot with RH = 100 and RM = 200 makes `calculateMemberSeek` (which
subtracts (RM - RH)/2) and `calculateMemberSeekClient` with empty history
(which subtracts RH/2 + RM) return different targets. -/
theorem two_seek_formulas_differ :
    ∃ (hostData : HostSyncData) (TM RM : ℚ),
      hostData.isPlaying = true ∧ 0 ≤ RM ∧ 0 ≤ hostData.RH.getD 0 ∧
      calculateMemberSeek hostData TM RM ≠
        calculateMemberSeekClient hostData TM RM [] 150 := by
  refine ⟨⟨10000, 0, some 100, true⟩, 1000, 200, rfl, by norm_num, by norm_num, ?_⟩
  norm_num [calculateMemberSeek, calculateMemberSeekClient, adjustedSeek, rawSeekClient]

/-- Helper: the target computed by the member tick in the two scenario
snapshots (zero latencies, evaluated 1000 ms after publish) is 61000. -/
theorem scenario_target (T : ℚ) :
    calculateMemberSeek ⟨60000, T, some 0, true⟩ (T + 1000) 0 = 61000 := by
  have hadj : adjustedSeek ⟨60000, T, some 0, true⟩ (T + 1000) 0 = 61000 := by
    simp [adjustedSeek]
    ring
  simp [calculateMemberSeek, hadj]

/-- C7: with a snapshot and local state present, the member tick issues a
seek if and only if the distance between the local position and the
computed target exceeds the 1000 ms tolerance, and the seek goes to the
computed target.  In the two scenarios (snapshot position 60000 published
at T, playing, zero latencies, evaluated at T + 1000): a member at 61000
issues no calls, a member at 55000 issues exactly a seek to 61000. -/
theorem tolerance_gated_seeking :
    (∀ (hostData : HostSyncData) (currentState : PlayerState) (TM RM t : ℚ),
      DriverCall.seek t ∈ (syncToHost (some hostData) (some currentState) TM RM).1 ↔
        (SYNC_TOLERANCE < |currentState.position - calculateMemberSeek hostData TM RM| ∧
          t = calculateMemberSeek hostData TM RM)) ∧
    (∀ T : ℚ,
      (syncToHost (some ⟨60000, T, some 0, true⟩) (some ⟨61000, false⟩) (T + 1000) 0).1 = []) ∧
    (∀ T : ℚ,
      (syncToHost (some ⟨60000, T, some 0, true⟩) (some ⟨55000, false⟩) (T + 1000) 0).1 =
        [DriverCall.seek 61000] ∧
      calculateMemberSeek ⟨60000, T, some 0, true⟩ (T + 1000) 0 = 61000) := by
  refine ⟨?_, ?_, ?_⟩
  · intro hostData currentState TM RM t
    simp only [syncToHost, List.mem_append]
    constructor
    · rintro (h | h)
      · split_ifs at h with hc
        · simp only [List.mem_singleton, DriverCall.seek.injEq] at h
          exact ⟨hc, h⟩
        · simp at h
      · split_ifs at h <;> simp_all
    · rintro ⟨hc, rfl⟩
      exact Or.inl (by rw [if_pos hc]; exact List.mem_singleton.mpr rfl)
  · intro T
    simp [syncToHost, scenario_target, SYNC_TOLERANCE]
  · intro T
    refine ⟨?_, scenario_target T⟩
    simp [syncToHost, scenario_target, SYNC_TOLERANCE]
    norm_num

/-- C8: with no snapshot available (the sync-data fetch is not ok), the
member tick issues zero driver calls and does not update lastSyncTime. -/
theorem no_snapshot_noop (current : Option PlayerState) (TM RM : ℚ) :
    syncToHost none current TM RM = ([], false) := rfl

/-- C9: both round-trip measurements return a value for every probe
outcome (the embedding is a total function), return 0 on a thrown error or
a non-ok response, and the returned value is always non-negative. -/
theorem round_trip_never_raises :
    (∀ r, 0 ≤ measureRoundTripTime r) ∧
    measureRoundTripTime ProbeResult.threw = 0 ∧
    (∀ s e, measureRoundTripTime (ProbeResult.completed false s e) = 0) ∧
    (∀ r, 0 ≤ measureRoundTripTimeClient r) ∧
    measureRoundTripTimeClient RedisProbeResult.threw = 0 := by
  refine ⟨?_, rfl, fun s e => rfl, ?_, rfl⟩
  · intro r
    cases r with
    | threw => exact le_refl 0
    | completed ok s e =>
        cases ok
        · exact le_refl 0
        · exact le_max_left 0 _
  · intro r
    cases r with
    | threw => exact le_refl 0
    | completed s e => exact le_max_left 0 _

/-- C10: the audioLatency argument has no effect on the result of
`calculateMemberSeekClient` in any branch. -/
theorem audio_latency_noninterference (hostData : HostSyncData) (TM RM : ℚ)
    (previousSeeks : List ℚ) (a1 a2 : ℚ) :
    calculateMemberSeekClient hostData TM RM previousSeeks a1 =
      calculateMemberSeekClient hostData TM RM previousSeeks a2 := rfl
